import Mathlib

/-!
Verification of the chunked multipart-upload protocol of the
FileSharingPlatform repository.

The development shallowly embeds the two components of the protocol:

* the client-side upload coordinator (`Upload.js`): the constants
  `CHUNK_SIZE` and `MAX_RETRY`, the per-chunk retry loop
  `uploadChunkWithFetch`, the sequential chunk loop `uploadChunks`,
  the `handleUpload` driver and the React state updated by the emitted
  `setProgress` / `setMessage` events (including the `useEffect` that
  clears the selected file once progress reaches 100);

* the server-side session manager (`fileController.js`):
  `createMultipartUpload` (one S3 `createMultipartUpload` call followed
  by the pre-signed-URL minting loop) and `completeMultipartUpload`
  (S3 `completeMultipartUpload`, then the Mongo metadata save).

Network and storage behaviour is abstracted as explicit parameters:
the outcome of every chunk-PUT attempt is a value of `AttemptOutcome`
supplied by an environment function, and the S3 / MongoDB calls of the
server are `Except`-valued parameters.  Byte counts are natural numbers;
`Math.round(100 * b / S)` on the non-negative rationals is embedded as
`jsRound`, exact natural-number floor of `100 * b / S + 1 / 2`.
-/

/-- 5 MiB per chunk, `const CHUNK_SIZE = 5 * 1024 * 1024`. -/
def CHUNK_SIZE : Nat := 5 * 1024 * 1024

/-- `const MAX_RETRY = 5`. -/
def MAX_RETRY : Nat := 5

/-- `Math.ceil(file.size / CHUNK_SIZE)` on naturals. -/
def chunkCount (fileSize : Nat) : Nat := (fileSize + CHUNK_SIZE - 1) / CHUNK_SIZE

/-- `const start = i * CHUNK_SIZE`. -/
def chunkStart (i : Nat) : Nat := i * CHUNK_SIZE

/-- `const end = Math.min(file.size, start + CHUNK_SIZE)`. -/
def chunkEnd (fileSize i : Nat) : Nat := min fileSize (chunkStart i + CHUNK_SIZE)

/-- Length of the slice `file.slice(start, end)` for chunk `i`. -/
def chunkLen (fileSize i : Nat) : Nat := chunkEnd fileSize i - chunkStart i

/-- `Math.round((num / den) * 100)` for `num, den : Nat`, `den > 0`:
round-half-up of `100 * num / den`, i.e. `(200 * num + den) / (2 * den)`
with natural floor division. -/
def jsRound (num den : Nat) : Nat := (200 * num + den) / (2 * den)

/-- Outcome of one `fetch(url, {method: PUT, body: chunk})` attempt:
either the fetch rejects / `response.ok` is false (`httpError`), or the
response is ok and `response.headers.get(ETag)` yields `etag`
(`none` when the header is absent). -/
inductive AttemptOutcome
  | httpError
  | okWith (etag : Option String)
deriving DecidableEq

/-- `etag.replace(/"/g, '')`: drop every double-quote character. -/
def stripQuotes (s : String) : String :=
  (s.toList.filter (fun c => c ≠ Char.ofNat 34)).asString

/-- Result of `uploadChunkWithFetch` for one chunk: the cleaned token on
success, plus the list of backoff delays (in milliseconds) performed
before retries; or failure after exhausting the retries, with the
delays performed along the way. -/
inductive ChunkResult
  | success (token : String) (waitsMs : List Nat)
  | failure (waitsMs : List Nat)
deriving DecidableEq

/-- Record one `await delay(w)` in front of a chunk result. -/
def withWait (w : Nat) : ChunkResult → ChunkResult
  | .success t ws => .success t (w :: ws)
  | .failure ws => .failure (w :: ws)

/-- Body of `uploadChunkWithFetch`, structurally recursive on
`remaining = MAX_RETRY - retry`, which encodes the guard
`retry < MAX_RETRY` of the catch block: an attempt numbered `retry`
that gets an ok response with a present ETag succeeds with the cleaned
tag; any other outcome (fetch error, non-ok status, or the
`etag.replace` TypeError thrown on a null ETag inside the same try
block) falls into the catch, and either waits `retry * 20 * 1000`
milliseconds and retries with `retry + 1`, or rethrows when
`retry < MAX_RETRY` fails (`remaining = 0`). -/
def uploadChunkFrom (o : Nat → AttemptOutcome) : Nat → Nat → ChunkResult
  | retry, 0 =>
    match o retry with
    | .okWith (some etag) => .success (stripQuotes etag) []
    | _ => .failure []
  | retry, rem + 1 =>
    match o retry with
    | .okWith (some etag) => .success (stripQuotes etag) []
    | _ => withWait (retry * 20 * 1000) (uploadChunkFrom o (retry + 1) rem)

/-- `uploadChunkWithFetch(url, chunk, onProgress, retry)`: the attempt
outcomes for this chunk are given by `o`, indexed by the attempt
number `retry` (the source calls it with the default `retry = 1`). -/
def uploadChunkWithFetch (o : Nat → AttemptOutcome) (retry : Nat) : ChunkResult :=
  uploadChunkFrom o retry (MAX_RETRY - retry)

/-- An attempt outcome that yields no usable token: a fetch/HTTP failure
or an ok response whose ETag header is null. -/
def noToken : AttemptOutcome → Bool
  | .okWith (some _) => false
  | _ => true

/-- Reinterpret an ok response with a null ETag as an HTTP failure;
identity on every other outcome. -/
def nullTagAsError : AttemptOutcome → AttemptOutcome
  | .okWith none => .httpError
  | a => a

/-- One element of the `parts` array: `{PartNumber: i + 1, ETag: ...}`. -/
structure UploadPart where
  PartNumber : Nat
  ETag : String
deriving DecidableEq

/-- Observable client-side events of one run of `uploadChunks` /
`handleUpload`, in program order: the `create-multipart` request, the
`setProgress` state updates, the `complete-multipart` request carrying
the collected parts and the file size, the `onUploadComplete` callback,
and the `setMessage` state updates. -/
inductive UploadEvent
  | createCall (chunkCountArg : Nat)
  | setProgress (p : Nat)
  | finalizeCall (parts : List UploadPart) (fileSize : Nat)
  | notifyComplete
  | setMessage (m : String)
deriving DecidableEq

/-- The sequential `for (let i = 0; i < chunkCount; i++)` loop of
`uploadChunks`, recursion on the number `rem` of chunks still to send
(`i + rem = chunkCount`).  `uploaded` is `totalUploadedBytes` and
`parts` the accumulated `parts` array.  Each chunk is pushed as
`{PartNumber: i + 1, ETag: token}` and followed by
`setProgress(Math.round(totalUploadedBytes / file.size * 100))`; a
chunk whose retries exhaust rethrows, aborting the loop with `none`. -/
def chunkLoop (S : Nat) (env : Nat → Nat → AttemptOutcome) :
    Nat → Nat → Nat → List UploadPart → List UploadEvent × Option (List UploadPart)
  | 0, _, _, parts => ([], some parts)
  | rem + 1, i, uploaded, parts =>
    match uploadChunkWithFetch (env i) 1 with
    | .success t _ =>
      let uploaded' := uploaded + chunkLen S i
      let r := chunkLoop S env rem (i + 1) uploaded' (parts ++ [⟨i + 1, t⟩])
      (.setProgress (jsRound uploaded' S) :: r.1, r.2)
    | .failure _ => ([], none)

/-- Wrap the chunk loop's outcome into the full `uploadChunks` trace:
the opening `create-multipart` request (`createCall`) and
`setProgress(0)` come first; on loop success the `complete-multipart`
request, the `props.onUploadComplete()` callback and the success
message follow; a loop abort rethrows, so nothing follows.  The boolean
records whether the run completed without a thrown error. -/
def assembleUpload (S n : Nat) :
    List UploadEvent × Option (List UploadPart) → List UploadEvent × Bool
  | (evs, some parts) =>
    (.createCall n :: .setProgress 0 :: evs ++
      [.finalizeCall parts S, .notifyComplete,
       .setMessage "File uploaded successfully!"], true)
  | (evs, none) => (.createCall n :: .setProgress 0 :: evs, false)

/-- `uploadChunks(file)` with the chunk count `n` abstracted out
(the source always instantiates `n := chunkCount S`): request the
session, `setProgress(0)`, run the sequential chunk loop and finish
per `assembleUpload`. -/
def uploadChunksWith (S n : Nat) (env : Nat → Nat → AttemptOutcome) :
    List UploadEvent × Bool :=
  assembleUpload S n (chunkLoop S env n 0 0 [])

/-- `uploadChunks(file)` for a file of `S` bytes, with per-chunk
attempt outcomes given by `env`: compute `chunkCount`, request the
session, run the sequential chunk loop and finish per
`assembleUpload`. -/
def uploadChunks (S : Nat) (env : Nat → Nat → AttemptOutcome) :
    List UploadEvent × Bool :=
  uploadChunksWith S (chunkCount S) env

/-- Prefix a run's trace with the `setProgress(0)` of `handleUpload`
and, when `uploadChunks` threw, append the generic failure message set
by the catch block. -/
def afterUpload : List UploadEvent × Bool → List UploadEvent
  | (evs, true) => .setProgress 0 :: evs
  | (evs, false) => .setProgress 0 :: evs ++ [.setMessage "Failed to upload file"]

/-- `handleUpload`: `setProgress(0)`, then `await uploadChunks(file)`;
a thrown error is caught and answered with the generic failure
message (see `afterUpload`). -/
def handleUpload (S : Nat) (env : Nat → Nat → AttemptOutcome) : List UploadEvent :=
  afterUpload (uploadChunks S env)

/-- The progress percentages of a trace, in emission order. -/
def progressValues (evs : List UploadEvent) : List Nat :=
  evs.filterMap (fun e =>
    match e with
    | .setProgress p => some p
    | _ => none)

/-- Does an event carry the `complete-multipart` request? -/
def isFinalize : UploadEvent → Bool
  | .finalizeCall _ _ => true
  | _ => false

/-- The React state of the `Upload` component: `file`, `progress`,
`message` (the `useState` hooks) and the value of the file input
element referenced by `fileInputRef`. -/
structure UploadState where
  file : Option String
  progress : Option Nat
  message : String
  inputValue : String
deriving DecidableEq

/-- Apply one emitted event to the component state.  `setProgress p`
stores `some p` and, when `p = 100`, runs the `useEffect` body that
clears `file` and resets the input element; `setMessage` stores the
message; the network / callback events leave the state unchanged. -/
def applyEvent (s : UploadState) (e : UploadEvent) : UploadState :=
  match e with
  | .setProgress p =>
    if p = 100 then
      { s with progress := some p, file := none, inputValue := "" }
    else { s with progress := some p }
  | .setMessage m => { s with message := m }
  | .createCall _ => s
  | .finalizeCall _ _ => s
  | .notifyComplete => s

/-- Fold a trace of events over the component state. -/
def runEvents (s : UploadState) (evs : List UploadEvent) : UploadState :=
  evs.foldl applyEvent s

/-- `disabled={progress !== null && progress !== 100}` on the file
input and the upload button. -/
def controlsDisabled (s : UploadState) : Bool :=
  decide (s.progress ≠ none) && decide (s.progress ≠ some 100)

/-- An environment in which every PUT attempt of every chunk succeeds
with the quoted tag `"etag1"`. -/
def envAllOk : Nat → Nat → AttemptOutcome :=
  fun _ _ => .okWith (some "\x22etag1\x22")

/-- One Mongo `File` document:
`{file_name, file_size, s3Key, uploadDate}`. -/
structure FileRecord where
  file_name : String
  file_size : Nat
  s3Key : String
  uploadDate : Nat
deriving DecidableEq

/-- Body of `POST /files/complete-multipart`. -/
structure CompleteReq where
  fileName : String
  uploadId : String
  parts : List UploadPart
  fileSize : Nat
deriving DecidableEq

/-- HTTP answer of a session-manager handler: `res.json({...})` on
success or `res.status(status).json({error})` from the catch block. -/
inductive ServerResp
  | ok (message : String) (downloadUrl : String)
  | err (status : Nat) (error : String)
deriving DecidableEq

/-- `completeMultipartUpload(req, res)` over a metadata `store`:
`s3Complete` is the outcome of `s3.completeMultipartUpload(params)`,
`save` the outcome of `newFile.save()`, `downloadUrl` the value minted
by `s3.getSignedUrl(getObject, ...)`, and `now` the current time used
for `uploadDate`.  Both awaited calls sit in one try block, so either
failure answers 500 with the error message and leaves the store
untouched; on success a `FileRecord` keyed by the file name is
appended. -/
def completeMultipartUpload (s3Complete : Except String Unit)
    (save : Except String Unit) (downloadUrl : String)
    (store : List FileRecord) (req : CompleteReq) (now : Nat) :
    ServerResp × List FileRecord :=
  match s3Complete with
  | .error e => (.err 500 e, store)
  | .ok _ =>
    match save with
    | .error e => (.err 500 e, store)
    | .ok _ =>
      (.ok "File uploaded successfully!" downloadUrl,
       store ++ [⟨req.fileName, req.fileSize, req.fileName, now⟩])

/-- Body of `POST /files/create-multipart`. -/
structure CreateReq where
  fileName : String
  fileType : String
  chunkCount : Nat
deriving DecidableEq

/-- Arguments of one `s3.getSignedUrlPromise(uploadPart, ...)` call:
the `UploadId`, the `Expires` window in seconds, and the 1-based
`PartNumber`. -/
structure SignRequest where
  uploadId : String
  expires : Nat
  partNumber : Nat
deriving DecidableEq

/-- `const EXPIRATION_HOURS = 60 * 60 * 24`, passed as the `Expires`
parameter (in seconds) of every pre-signed URL. -/
def EXPIRATION_HOURS : Nat := 60 * 60 * 24

/-- Outcome of the `createMultipartUpload` handler: `thrown` when the
initial `s3.createMultipartUpload` await rejects outside the try block
(the exception escapes the handler), `resp500` from the catch block
around the URL-minting loop, `respOk` for
`res.json({uploadId, preSignedUrls})`. -/
inductive CreateResult
  | thrown (e : String)
  | resp500 (error : String)
  | respOk (uploadId : String) (preSignedUrls : List String)
deriving DecidableEq

/-- The `for (let i = 0; i < chunkCount; i++)` URL-minting loop,
recursion on the number `rem` of URLs still to mint, current index `i`.
Each iteration awaits `sign ⟨uploadId, EXPIRATION_HOURS, i + 1⟩`;
a rejection aborts the loop (the thrown error is caught by the
handler's catch).  Returns the minted URLs (or the error) together
with the list of sign requests actually performed. -/
def mintUrlsFrom (sign : SignRequest → Except String String) (uploadId : String) :
    Nat → Nat → Except String (List String) × List SignRequest
  | 0, _ => (.ok [], [])
  | rem + 1, i =>
    let rq : SignRequest := ⟨uploadId, EXPIRATION_HOURS, i + 1⟩
    match sign rq with
    | .error e => (.error e, [rq])
    | .ok url =>
      let r := mintUrlsFrom sign uploadId rem (i + 1)
      (match r.1 with
       | .ok urls => .ok (url :: urls)
       | .error e => .error e, rq :: r.2)

/-- `createMultipartUpload(req, res)`: `s3Create` is the outcome of the
`s3.createMultipartUpload` call (yielding the `UploadId`), `sign` the
behaviour of `s3.getSignedUrlPromise`.  The create call is awaited
before the try block, so its rejection is thrown out of the handler;
sign failures are caught and answered with 500. -/
def createMultipartUpload (s3Create : Except String String)
    (sign : SignRequest → Except String String) (req : CreateReq) :
    CreateResult × List SignRequest :=
  match s3Create with
  | .error e => (.thrown e, [])
  | .ok uploadId =>
    let r := mintUrlsFrom sign uploadId req.chunkCount 0
    match r.1 with
    | .error e => (.resp500 e, r.2)
    | .ok urls => (.respOk uploadId urls, r.2)

/-- The sign requests the handler performs for a session with
`chunkCount` chunks when every sign call succeeds. -/
def signRequestsFor (uploadId : String) (n : Nat) : List SignRequest :=
  (List.range n).map (fun i => ⟨uploadId, EXPIRATION_HOURS, i + 1⟩)

/-! ### Helper lemmas -/

theorem CHUNK_SIZE_pos : 0 < CHUNK_SIZE := by decide

theorem mul_lt_of_lt_chunkCount {S i : Nat} (h : i < chunkCount S) :
    i * CHUNK_SIZE < S := by
  simp only [chunkCount, CHUNK_SIZE] at h ⊢
  omega

theorem uploaded_step {S i : Nat} (h : i < chunkCount S) :
    min S (i * CHUNK_SIZE) + chunkLen S i = min S ((i + 1) * CHUNK_SIZE) := by
  have hi := mul_lt_of_lt_chunkCount h
  simp only [chunkLen, chunkEnd, chunkStart, CHUNK_SIZE] at *
  omega

theorem jsRound_mono {S a b : Nat} (h : a ≤ b) : jsRound a S ≤ jsRound b S :=
  Nat.div_le_div_right (by omega)

theorem jsRound_self {S : Nat} (hS : 0 < S) : jsRound S S = 100 := by
  have h1 : 100 * (2 * S) ≤ 200 * S + S := by omega
  have h2 : 200 * S + S < (100 + 1) * (2 * S) := by omega
  exact Nat.div_eq_of_lt_le h1 h2

theorem noToken_elim {a : AttemptOutcome} (h : noToken a = true) :
    a = .httpError ∨ a = .okWith none := by
  cases a with
  | httpError => exact Or.inl rfl
  | okWith e =>
    cases e with
    | none => exact Or.inr rfl
    | some s => simp [noToken] at h

theorem uploadChunkFrom_bad_succ (o : Nat → AttemptOutcome) (r rem : Nat)
    (h : noToken (o r) = true) :
    uploadChunkFrom o r (rem + 1) =
      withWait (r * 20 * 1000) (uploadChunkFrom o (r + 1) rem) := by
  rcases noToken_elim h with h' | h' <;> simp [uploadChunkFrom, h']

theorem uploadChunkFrom_bad_zero (o : Nat → AttemptOutcome) (r : Nat)
    (h : noToken (o r) = true) :
    uploadChunkFrom o r 0 = .failure [] := by
  rcases noToken_elim h with h' | h' <;> simp [uploadChunkFrom, h']

theorem chunkLoop_events_progress (S : Nat) (env : Nat → Nat → AttemptOutcome) :
    ∀ rem i uploaded parts, ∀ e ∈ (chunkLoop S env rem i uploaded parts).1,
      ∃ p, e = UploadEvent.setProgress p := by
  intro rem
  induction rem with
  | zero => intro i u parts e he; simp [chunkLoop] at he
  | succ rem ih =>
    intro i u parts e he
    simp only [chunkLoop] at he
    cases hup : uploadChunkWithFetch (env i) 1 with
    | success t ws =>
      rw [hup] at he
      simp only [List.mem_cons] at he
      rcases he with he | he
      · exact ⟨_, he⟩
      · exact ih _ _ _ e he
    | failure ws =>
      rw [hup] at he
      simp at he

theorem chunkLoop_success_spec (S : Nat) (env : Nat → Nat → AttemptOutcome) :
    ∀ rem i uploaded parts evs ps,
      i + rem = chunkCount S → uploaded = min S (i * CHUNK_SIZE) →
      chunkLoop S env rem i uploaded parts = (evs, some ps) →
      evs = (List.range' (i + 1) rem).map
          (fun k => UploadEvent.setProgress (jsRound (min S (k * CHUNK_SIZE)) S)) ∧
      ps.map UploadPart.PartNumber =
        parts.map UploadPart.PartNumber ++ List.range' (i + 1) rem := by
  intro rem
  induction rem with
  | zero =>
    intro i u parts evs ps hn hu h
    simp only [chunkLoop, Prod.mk.injEq] at h
    obtain ⟨he, hp⟩ := h
    subst he
    rw [Option.some.injEq] at hp
    subst hp
    simp
  | succ rem ih =>
    intro i u parts evs ps hn hu h
    have hi : i < chunkCount S := by omega
    simp only [chunkLoop] at h
    cases hup : uploadChunkWithFetch (env i) 1 with
    | failure ws => rw [hup] at h; simp at h
    | success t ws =>
      rw [hup] at h
      simp only [Prod.mk.injEq] at h
      obtain ⟨he, hp⟩ := h
      have hu' : u + chunkLen S i = min S ((i + 1) * CHUNK_SIZE) := by
        rw [hu]; exact uploaded_step hi
      rcases hcl : chunkLoop S env rem (i + 1) (u + chunkLen S i)
          (parts ++ [⟨i + 1, t⟩]) with ⟨evs', res⟩
      rw [hcl] at he hp
      simp only at he hp
      rw [hp] at hcl
      obtain ⟨he', hp'⟩ := ih (i + 1) _ _ _ _ (by omega)
        (by rw [← hu']) hcl
      constructor
      · rw [← he, he', List.range'_succ, List.map_cons, hu']
      · rw [hp', List.map_append, List.range'_succ]
        simp

theorem uploadChunks_def (S : Nat) (env : Nat → Nat → AttemptOutcome) :
    uploadChunks S env = uploadChunksWith S (chunkCount S) env := rfl

theorem uploadChunksWith_success_shape (S n : Nat) (env : Nat → Nat → AttemptOutcome)
    (hn : n = chunkCount S) (hs : (uploadChunksWith S n env).2 = true) :
    ∃ ps : List UploadPart,
      (uploadChunksWith S n env).1 =
        UploadEvent.createCall n :: UploadEvent.setProgress 0 ::
        (List.range' 1 n).map
          (fun k => UploadEvent.setProgress (jsRound (min S (k * CHUNK_SIZE)) S)) ++
        [UploadEvent.finalizeCall ps S, UploadEvent.notifyComplete,
         UploadEvent.setMessage "File uploaded successfully!"] ∧
      ps.map UploadPart.PartNumber = List.range' 1 n := by
  rcases hcl : chunkLoop S env n 0 0 [] with ⟨levs, res⟩
  cases res with
  | none => simp [uploadChunksWith, assembleUpload, hcl] at hs
  | some ps =>
    obtain ⟨he, hp⟩ := chunkLoop_success_spec S env n 0 0 [] levs ps
      (by omega) (by simp) hcl
    refine ⟨ps, ?_, by simpa using hp⟩
    simp [uploadChunksWith, assembleUpload, hcl, he]

theorem uploadChunksWith_failure_shape (S n : Nat) (env : Nat → Nat → AttemptOutcome)
    (hs : (uploadChunksWith S n env).2 = false) :
    (uploadChunksWith S n env).1 =
      UploadEvent.createCall n :: UploadEvent.setProgress 0 ::
        (chunkLoop S env n 0 0 []).1 ∧
    ∀ e ∈ (uploadChunksWith S n env).1, isFinalize e = false := by
  rcases hcl : chunkLoop S env n 0 0 [] with ⟨levs, res⟩
  cases res with
  | some ps => simp [uploadChunksWith, assembleUpload, hcl] at hs
  | none =>
    refine ⟨by simp [uploadChunksWith, assembleUpload, hcl], ?_⟩
    intro e he
    simp only [uploadChunksWith, assembleUpload, hcl, List.mem_cons] at he
    rcases he with rfl | rfl | he
    · rfl
    · rfl
    · obtain ⟨p, rfl⟩ := chunkLoop_events_progress S env n 0 0 [] e
        (by rw [hcl]; exact he)
      rfl

theorem chunkLoop_none_of_fail (S : Nat) (env : Nat → Nat → AttemptOutcome) :
    ∀ rem i uploaded parts j, i ≤ j → j < i + rem →
      (∀ t ws, uploadChunkWithFetch (env j) 1 ≠ .success t ws) →
      (chunkLoop S env rem i uploaded parts).2 = none := by
  intro rem
  induction rem with
  | zero => intro i u parts j h1 h2 _; omega
  | succ rem ih =>
    intro i u parts j h1 h2 hfail
    simp only [chunkLoop]
    cases hup : uploadChunkWithFetch (env i) 1 with
    | failure ws => simp
    | success t ws =>
      rcases Nat.eq_or_lt_of_le h1 with heq | hlt
      · subst heq; exact absurd hup (hfail t ws)
      · simp only
        exact ih (i + 1) _ _ j hlt (by omega) hfail

theorem uploadChunksWith_false_of_none (S n : Nat) (env : Nat → Nat → AttemptOutcome)
    (hnone : (chunkLoop S env n 0 0 []).2 = none) :
    (uploadChunksWith S n env).2 = false := by
  rcases hcl : chunkLoop S env n 0 0 [] with ⟨levs, res⟩
  rw [hcl] at hnone
  simp at hnone
  subst hnone
  simp [uploadChunksWith, assembleUpload, hcl]

/-! ### Claim theorems -/

/-- C2: for every file size `S > 0` and the fixed chunk size
`CHUNK_SIZE = 5 MiB`, `uploadChunks` computes
`chunkCount = ceil(S / CHUNK_SIZE)` (the least `m` with
`S ≤ m * CHUNK_SIZE`); chunk `i` (0-indexed) is the byte range
`[i * CHUNK_SIZE, min S ((i + 1) * CHUNK_SIZE))`; the final chunk's
length equals `S - (chunkCount - 1) * CHUNK_SIZE` and is at most
`CHUNK_SIZE`. -/
theorem beginUpload_chunk_arithmetic (S : Nat) (hS : 0 < S) :
    (S ≤ chunkCount S * CHUNK_SIZE ∧
      ∀ m : Nat, S ≤ m * CHUNK_SIZE → chunkCount S ≤ m) ∧
    (∀ i : Nat, chunkStart i = i * CHUNK_SIZE ∧
      chunkEnd S i = min S (i * CHUNK_SIZE + CHUNK_SIZE)) ∧
    chunkLen S (chunkCount S - 1) = S - (chunkCount S - 1) * CHUNK_SIZE ∧
    chunkLen S (chunkCount S - 1) ≤ CHUNK_SIZE := by
  refine ⟨⟨?_, fun m hm => ?_⟩, fun i => ⟨rfl, rfl⟩, ?_, ?_⟩
  · simp only [chunkCount, CHUNK_SIZE] at *
    omega
  · simp only [chunkCount, CHUNK_SIZE] at *
    omega
  · simp only [chunkCount, chunkLen, chunkEnd, chunkStart, CHUNK_SIZE] at *
    omega
  · simp only [chunkCount, chunkLen, chunkEnd, chunkStart, CHUNK_SIZE] at *
    omega

theorem beginUpload_chunk_arithmetic_witness :
    0 < 12582912 ∧
    ((12582912 ≤ chunkCount 12582912 * CHUNK_SIZE ∧
      ∀ m : Nat, 12582912 ≤ m * CHUNK_SIZE → chunkCount 12582912 ≤ m) ∧
    (∀ i : Nat, chunkStart i = i * CHUNK_SIZE ∧
      chunkEnd 12582912 i = min 12582912 (i * CHUNK_SIZE + CHUNK_SIZE)) ∧
    chunkLen 12582912 (chunkCount 12582912 - 1) =
      12582912 - (chunkCount 12582912 - 1) * CHUNK_SIZE ∧
    chunkLen 12582912 (chunkCount 12582912 - 1) ≤ CHUNK_SIZE) :=
  ⟨by decide, beginUpload_chunk_arithmetic 12582912 (by decide)⟩

/-- C4: a chunk-PUT attempt with a non-success outcome retries after a
backoff of `attempt * 20` seconds while the attempt count is below
`MAX_RETRY = 5`, and propagates the failure once the attempt count
reaches `MAX_RETRY`; hence a chunk whose first `MAX_RETRY` attempts all
fail yields `failure` with backoffs 20 s, 40 s, 60 s, 80 s, the whole
upload aborts, and no `complete-multipart` call is made. -/
theorem chunk_retry_policy :
    (∀ (o : Nat → AttemptOutcome) (a : Nat), noToken (o a) = true → a < MAX_RETRY →
      uploadChunkWithFetch o a =
        withWait (a * 20 * 1000) (uploadChunkWithFetch o (a + 1))) ∧
    (∀ (o : Nat → AttemptOutcome) (a : Nat), noToken (o a) = true → MAX_RETRY ≤ a →
      uploadChunkWithFetch o a = .failure []) ∧
    (∀ (S : Nat) (env : Nat → Nat → AttemptOutcome) (j : Nat), j < chunkCount S →
      (∀ a, 1 ≤ a → a ≤ MAX_RETRY → noToken (env j a) = true) →
      uploadChunkWithFetch (env j) 1 = .failure [20000, 40000, 60000, 80000] ∧
      (uploadChunks S env).2 = false ∧
      ∀ e ∈ (uploadChunks S env).1, isFinalize e = false) := by
  have step : ∀ (o : Nat → AttemptOutcome) (a : Nat),
      noToken (o a) = true → a < MAX_RETRY →
      uploadChunkWithFetch o a =
        withWait (a * 20 * 1000) (uploadChunkWithFetch o (a + 1)) := by
    intro o a hb ha
    unfold uploadChunkWithFetch
    obtain ⟨rem, h1, h2⟩ : ∃ rem, MAX_RETRY - a = rem + 1 ∧ MAX_RETRY - (a + 1) = rem := by
      simp only [MAX_RETRY] at ha ⊢
      exact ⟨5 - a - 1, by omega, by omega⟩
    rw [h1, h2, uploadChunkFrom_bad_succ o a rem hb]
  have stop : ∀ (o : Nat → AttemptOutcome) (a : Nat),
      noToken (o a) = true → MAX_RETRY ≤ a →
      uploadChunkWithFetch o a = .failure [] := by
    intro o a hb ha
    unfold uploadChunkWithFetch
    have h0 : MAX_RETRY - a = 0 := by
      simp only [MAX_RETRY] at ha ⊢
      omega
    rw [h0, uploadChunkFrom_bad_zero o a hb]
  refine ⟨step, stop, ?_⟩
  intro S env j hj hbad
  have hfail : uploadChunkWithFetch (env j) 1 = .failure [20000, 40000, 60000, 80000] := by
    rw [step _ 1 (hbad 1 (by decide) (by decide)) (by decide),
        step _ 2 (hbad 2 (by decide) (by decide)) (by decide),
        step _ 3 (hbad 3 (by decide) (by decide)) (by decide),
        step _ 4 (hbad 4 (by decide) (by decide)) (by decide),
        stop _ 5 (hbad 5 (by decide) (by decide)) (by decide)]
    rfl
  have hnone : (chunkLoop S env (chunkCount S) 0 0 []).2 = none := by
    apply chunkLoop_none_of_fail S env (chunkCount S) 0 0 [] j (Nat.zero_le j)
      (by omega)
    intro t ws hcontra
    rw [hfail] at hcontra
    exact ChunkResult.noConfusion hcontra
  have hs2 : (uploadChunks S env).2 = false := by
    rw [uploadChunks_def]
    exact uploadChunksWith_false_of_none S (chunkCount S) env hnone
  refine ⟨hfail, hs2, ?_⟩
  rw [uploadChunks_def] at hs2 ⊢
  exact (uploadChunksWith_failure_shape S (chunkCount S) env hs2).2

theorem chunk_retry_policy_witness :
    0 < chunkCount 1 ∧
    (uploadChunkWithFetch ((fun _ _ => AttemptOutcome.httpError) 0) 1 =
        .failure [20000, 40000, 60000, 80000] ∧
      (uploadChunks 1 (fun _ _ => AttemptOutcome.httpError)).2 = false ∧
      ∀ e ∈ (uploadChunks 1 (fun _ _ => AttemptOutcome.httpError)).1,
        isFinalize e = false) :=
  ⟨by decide, chunk_retry_policy.2.2 1 (fun _ _ => AttemptOutcome.httpError) 0
    (by decide) (fun a h1 h2 => rfl)⟩

/-- C10: an ok chunk-PUT response whose ETag header is null behaves
exactly like a non-success response: the `etag.replace` call inside the
try block throws, the same retry-with-backoff path is taken, and no
token is recorded for that attempt. -/
theorem null_etag_same_as_failure (o : Nat → AttemptOutcome) (r : Nat) :
    uploadChunkWithFetch (fun k => nullTagAsError (o k)) r = uploadChunkWithFetch o r ∧
    (o r = .okWith none → r < MAX_RETRY →
      uploadChunkWithFetch o r =
        withWait (r * 20 * 1000) (uploadChunkWithFetch o (r + 1))) := by
  constructor
  · unfold uploadChunkWithFetch
    have hhttp : nullTagAsError .httpError = .httpError := rfl
    have hnone : nullTagAsError (.okWith none) = .httpError := rfl
    have hsome : ∀ s, nullTagAsError (.okWith (some s)) = .okWith (some s) :=
      fun s => rfl
    have key : ∀ rem r,
        uploadChunkFrom (fun k => nullTagAsError (o k)) r rem = uploadChunkFrom o r rem := by
      intro rem
      induction rem with
      | zero =>
        intro r
        cases h : o r with
        | httpError => simp [uploadChunkFrom, h, hhttp]
        | okWith e => cases e <;> simp [uploadChunkFrom, h, hnone, hsome]
      | succ rem ih =>
        intro r
        cases h : o r with
        | httpError => simp [uploadChunkFrom, h, hhttp, ih]
        | okWith e => cases e <;> simp [uploadChunkFrom, h, hnone, hsome, ih]
    exact key _ r
  · intro h hr
    have hb : noToken (o r) = true := by rw [h]; rfl
    unfold uploadChunkWithFetch
    obtain ⟨rem, h1, h2⟩ : ∃ rem, MAX_RETRY - r = rem + 1 ∧ MAX_RETRY - (r + 1) = rem := by
      simp only [MAX_RETRY] at hr ⊢
      exact ⟨5 - r - 1, by omega, by omega⟩
    rw [h1, h2, uploadChunkFrom_bad_succ o r rem hb]

theorem null_etag_same_as_failure_witness :
    uploadChunkWithFetch (fun _ => AttemptOutcome.okWith none) 1 =
      withWait (1 * 20 * 1000) (uploadChunkWithFetch (fun _ => AttemptOutcome.okWith none) 2) :=
  (null_etag_same_as_failure (fun _ => AttemptOutcome.okWith none) 1).2 rfl (by decide)

theorem filterMap_progress_map (f : Nat → Nat) (l : List Nat) :
    progressValues (l.map (fun k => UploadEvent.setProgress (f k))) = l.map f := by
  induction l with
  | nil => rfl
  | cons a l ih =>
    simp only [progressValues, List.map_cons, List.filterMap_cons] at ih ⊢
    rw [ih]

theorem progress_pairwise (S n : Nat) :
    (0 :: (List.range' 1 n).map
      (fun k => jsRound (min S (k * CHUNK_SIZE)) S)).Pairwise (· ≤ ·) := by
  refine List.Pairwise.cons (fun b hb => Nat.zero_le b) ?_
  refine List.Pairwise.map _ ?_ (List.pairwise_lt_range' 1 n)
  intro a b hab
  refine jsRound_mono (min_le_min (le_refl S) ?_)
  have : a * CHUNK_SIZE ≤ b * CHUNK_SIZE := by
    simp only [CHUNK_SIZE]
    omega
  exact this

/-- C1: whenever a `complete-multipart` request is issued for a file of
`S` bytes, the submitted token list has exactly `chunkCount S` entries
and its `PartNumber`s are exactly `1, 2, ..., chunkCount S` in
ascending order, with no duplicates or gaps. -/
theorem finalize_parts_contiguous (S : Nat) (env : Nat → Nat → AttemptOutcome)
    (parts : List UploadPart)
    (h : UploadEvent.finalizeCall parts S ∈ (uploadChunks S env).1) :
    parts.length = chunkCount S ∧
    parts.map UploadPart.PartNumber = List.range' 1 (chunkCount S) := by
  rw [uploadChunks_def] at h
  obtain ⟨n, hn⟩ : ∃ n, chunkCount S = n := ⟨_, rfl⟩
  rw [hn] at h ⊢
  cases hs : (uploadChunksWith S n env).2 with
  | false =>
    obtain ⟨_, hnof⟩ := uploadChunksWith_failure_shape S n env hs
    have hbad := hnof _ h
    simp [isFinalize] at hbad
  | true =>
    obtain ⟨ps, htr, hparts⟩ := uploadChunksWith_success_shape S n env hn.symm hs
    rw [htr] at h
    have hps : parts = ps := by
      simp at h
      exact h
    subst hps
    refine ⟨?_, hparts⟩
    have hlen := congrArg List.length hparts
    simpa using hlen

theorem finalize_parts_contiguous_witness :
    (UploadEvent.finalizeCall [UploadPart.mk 1 "etag1"] CHUNK_SIZE ∈
      (uploadChunks CHUNK_SIZE envAllOk).1) ∧
    ([UploadPart.mk 1 "etag1"].length = chunkCount CHUNK_SIZE ∧
      [UploadPart.mk 1 "etag1"].map UploadPart.PartNumber =
        List.range' 1 (chunkCount CHUNK_SIZE)) :=
  ⟨by decide, finalize_parts_contiguous CHUNK_SIZE envAllOk [UploadPart.mk 1 "etag1"]
    (by decide)⟩

theorem progressValues_nil : progressValues [] = [] := rfl

theorem progressValues_cons_create (k : Nat) (l : List UploadEvent) :
    progressValues (UploadEvent.createCall k :: l) = progressValues l := rfl

theorem progressValues_cons_progress (p : Nat) (l : List UploadEvent) :
    progressValues (UploadEvent.setProgress p :: l) = p :: progressValues l := rfl

theorem progressValues_cons_finalize (ps : List UploadPart) (sz : Nat)
    (l : List UploadEvent) :
    progressValues (UploadEvent.finalizeCall ps sz :: l) = progressValues l := rfl

theorem progressValues_cons_notify (l : List UploadEvent) :
    progressValues (UploadEvent.notifyComplete :: l) = progressValues l := rfl

theorem progressValues_cons_message (m : String) (l : List UploadEvent) :
    progressValues (UploadEvent.setMessage m :: l) = progressValues l := rfl

theorem progressValues_append (l1 l2 : List UploadEvent) :
    progressValues (l1 ++ l2) = progressValues l1 ++ progressValues l2 :=
  List.filterMap_append _ _ _

/-- C3 (amended): across a successful run of `uploadChunks` on a
non-empty file, the emitted progress values are exactly `0` followed by
`round(100 * bytesUploadedAfterChunk_k / fileSize)` for
`k = 1, ..., chunkCount` (where the bytes uploaded after `k` chunks are
`min S (k * CHUNK_SIZE)`), the sequence is monotonically
non-decreasing, and the value 100 is emitted BEFORE the finalization
request — not only after finalization succeeds. -/
theorem uploadChunks_progress_monotone (S : Nat) (env : Nat → Nat → AttemptOutcome)
    (hS : 0 < S) (hs : (uploadChunks S env).2 = true) :
    progressValues (uploadChunks S env).1 =
      0 :: (List.range' 1 (chunkCount S)).map
        (fun k => jsRound (min S (k * CHUNK_SIZE)) S) ∧
    (progressValues (uploadChunks S env).1).Pairwise (· ≤ ·) ∧
    ∃ pre ps post,
      (uploadChunks S env).1 = pre ++ UploadEvent.setProgress 100 :: post ∧
      UploadEvent.finalizeCall ps S ∈ post := by
  rw [uploadChunks_def] at hs ⊢
  have hle : S ≤ chunkCount S * CHUNK_SIZE := by
    simp only [chunkCount, CHUNK_SIZE]
    omega
  have h1n : 1 ≤ chunkCount S := by
    simp only [chunkCount, CHUNK_SIZE]
    omega
  obtain ⟨n, hn⟩ : ∃ n, chunkCount S = n := ⟨_, rfl⟩
  rw [hn] at hs hle h1n ⊢
  obtain ⟨ps, htr, hparts⟩ := uploadChunksWith_success_shape S n env hn.symm hs
  have hpv : progressValues (uploadChunksWith S n env).1 =
      0 :: (List.range' 1 n).map (fun k => jsRound (min S (k * CHUNK_SIZE)) S) := by
    rw [htr]
    simp only [progressValues_cons_create, progressValues_cons_progress,
      progressValues_append, filterMap_progress_map,
      progressValues_cons_finalize, progressValues_cons_notify,
      progressValues_cons_message, progressValues_nil, List.append_nil]
  refine ⟨hpv, by rw [hpv]; exact progress_pairwise S n, ?_⟩
  obtain ⟨m, hm⟩ : ∃ m, n = m + 1 := ⟨n - 1, by omega⟩
  subst hm
  have hlast : jsRound (min S ((1 + m) * CHUNK_SIZE)) S = 100 := by
    have hminS : min S ((1 + m) * CHUNK_SIZE) = S := by
      simp only [CHUNK_SIZE] at hle ⊢
      omega
    rw [hminS, jsRound_self hS]
  refine ⟨UploadEvent.createCall (m + 1) :: UploadEvent.setProgress 0 ::
      (List.range' 1 m).map
        (fun k => UploadEvent.setProgress (jsRound (min S (k * CHUNK_SIZE)) S)),
    ps,
    [UploadEvent.finalizeCall ps S, UploadEvent.notifyComplete,
      UploadEvent.setMessage "File uploaded successfully!"], ?_, by simp⟩
  rw [htr, List.range'_1_concat, List.map_append]
  simp [hlast, List.append_assoc]

theorem uploadChunks_progress_monotone_witness :
    0 < CHUNK_SIZE ∧ (uploadChunks CHUNK_SIZE envAllOk).2 = true ∧
    (progressValues (uploadChunks CHUNK_SIZE envAllOk).1 =
      0 :: (List.range' 1 (chunkCount CHUNK_SIZE)).map
        (fun k => jsRound (min CHUNK_SIZE (k * CHUNK_SIZE)) CHUNK_SIZE) ∧
    (progressValues (uploadChunks CHUNK_SIZE envAllOk).1).Pairwise (· ≤ ·) ∧
    ∃ pre ps post,
      (uploadChunks CHUNK_SIZE envAllOk).1 =
        pre ++ UploadEvent.setProgress 100 :: post ∧
      UploadEvent.finalizeCall ps CHUNK_SIZE ∈ post) :=
  ⟨by decide, by decide,
    uploadChunks_progress_monotone CHUNK_SIZE envAllOk (by decide) (by decide)⟩

/-- C3 counterexample: in the (fully successful) one-chunk run on a
file of exactly `CHUNK_SIZE` bytes, a `setProgress 100` event occurs at
an index strictly BEFORE every `complete-multipart` request in the
trace, so "progress reaches exactly 100 only after the finalization
call succeeds" is false for the code: progress is set to 100 as soon as
the last chunk's bytes are counted, before finalization is even
requested. -/
theorem progress100_before_finalize_cex :
    ¬ (∀ i : Fin ((uploadChunks CHUNK_SIZE envAllOk).1.length),
        (uploadChunks CHUNK_SIZE envAllOk).1.get i = UploadEvent.setProgress 100 →
        ∃ j : Fin ((uploadChunks CHUNK_SIZE envAllOk).1.length), j < i ∧
          isFinalize ((uploadChunks CHUNK_SIZE envAllOk).1.get j) = true) := by
  decide

theorem handleUpload_def (S : Nat) (env : Nat → Nat → AttemptOutcome) :
    handleUpload S env = afterUpload (uploadChunksWith S (chunkCount S) env) := rfl

/-- C9: for a file of size 0, `uploadChunks` computes `chunkCount = 0`,
uploads no chunks, and still issues the `complete-multipart` request
with an empty token list; progress is set to 0 and never reaches 100,
so the file-selection and upload controls remain disabled after the
run. -/
theorem uploadChunks_zero_size (env : Nat → Nat → AttemptOutcome) (init : UploadState) :
    chunkCount 0 = 0 ∧
    uploadChunks 0 env =
      ([UploadEvent.createCall 0, UploadEvent.setProgress 0,
        UploadEvent.finalizeCall [] 0, UploadEvent.notifyComplete,
        UploadEvent.setMessage "File uploaded successfully!"], true) ∧
    (∀ p ∈ progressValues (uploadChunks 0 env).1, p = 0) ∧
    (runEvents init (handleUpload 0 env)).progress = some 0 ∧
    controlsDisabled (runEvents init (handleUpload 0 env)) = true := by
  have h2 : uploadChunks 0 env =
      ([UploadEvent.createCall 0, UploadEvent.setProgress 0,
        UploadEvent.finalizeCall [] 0, UploadEvent.notifyComplete,
        UploadEvent.setMessage "File uploaded successfully!"], true) := rfl
  refine ⟨by decide, h2, ?_, rfl, rfl⟩
  intro p hp
  rw [h2] at hp
  simp [progressValues] at hp
  exact hp

/-- C8 (amended): after a successful run the status message is the
success message and the selected file and input element are cleared —
via the progress-100 effect — but `progress` itself is left at
`some 100`, not reset to null; the controls are nonetheless enabled
again, because they are disabled only when progress is neither null nor
100.  On an unrecovered failure the status is the generic failure
message and the progress value is exactly the one the upload events
set, untouched by the catch block. -/
theorem handleUpload_terminal_state (S : Nat) (env : Nat → Nat → AttemptOutcome)
    (init : UploadState) (hS : 0 < S) :
    ((uploadChunks S env).2 = true →
      runEvents init (handleUpload S env) =
        ⟨none, some 100, "File uploaded successfully!", ""⟩ ∧
      controlsDisabled (runEvents init (handleUpload S env)) = false) ∧
    ((uploadChunks S env).2 = false →
      (runEvents init (handleUpload S env)).message = "Failed to upload file" ∧
      (runEvents init (handleUpload S env)).progress =
        (runEvents init
          (UploadEvent.setProgress 0 :: (uploadChunks S env).1)).progress) := by
  rw [uploadChunks_def, handleUpload_def]
  have hle : S ≤ chunkCount S * CHUNK_SIZE := by
    simp only [chunkCount, CHUNK_SIZE]
    omega
  have h1n : 1 ≤ chunkCount S := by
    simp only [chunkCount, CHUNK_SIZE]
    omega
  obtain ⟨n, hn⟩ : ∃ n, chunkCount S = n := ⟨_, rfl⟩
  rw [hn] at hle h1n ⊢
  constructor
  · intro hs
    obtain ⟨ps, htr, _⟩ := uploadChunksWith_success_shape S n env hn.symm hs
    obtain ⟨m, hm⟩ : ∃ m, n = m + 1 := ⟨n - 1, by omega⟩
    subst hm
    have hlast : jsRound (min S ((1 + m) * CHUNK_SIZE)) S = 100 := by
      have hminS : min S ((1 + m) * CHUNK_SIZE) = S := by
        simp only [CHUNK_SIZE] at hle ⊢
        omega
      rw [hminS, jsRound_self hS]
    rcases hu : uploadChunksWith S (m + 1) env with ⟨evs, b⟩
    rw [hu] at hs htr
    simp only at hs htr
    subst hs
    have hfin : runEvents init (afterUpload (evs, true)) =
        ⟨none, some 100, "File uploaded successfully!", ""⟩ := by
      rw [htr, List.range'_1_concat, List.map_append]
      simp only [afterUpload, runEvents, hlast, List.map_cons, List.map_nil,
        List.cons_append, List.append_assoc, List.singleton_append,
        List.foldl_append, List.foldl_cons, List.foldl_nil]
      simp [applyEvent]
    exact ⟨hfin, by rw [hfin]; rfl⟩
  · intro hs
    rcases hu : uploadChunksWith S n env with ⟨evs, b⟩
    rw [hu] at hs
    simp only at hs
    subst hs
    simp only [afterUpload, runEvents]
    rw [List.foldl_append]
    simp [applyEvent]

theorem handleUpload_terminal_state_witness :
    0 < CHUNK_SIZE ∧
    (((uploadChunks CHUNK_SIZE envAllOk).2 = true →
      runEvents ⟨some "file1", none, "", "file1"⟩ (handleUpload CHUNK_SIZE envAllOk) =
        ⟨none, some 100, "File uploaded successfully!", ""⟩ ∧
      controlsDisabled
        (runEvents ⟨some "file1", none, "", "file1"⟩
          (handleUpload CHUNK_SIZE envAllOk)) = false) ∧
    ((uploadChunks CHUNK_SIZE envAllOk).2 = false →
      (runEvents ⟨some "file1", none, "", "file1"⟩
        (handleUpload CHUNK_SIZE envAllOk)).message = "Failed to upload file" ∧
      (runEvents ⟨some "file1", none, "", "file1"⟩
        (handleUpload CHUNK_SIZE envAllOk)).progress =
        (runEvents ⟨some "file1", none, "", "file1"⟩
          (UploadEvent.setProgress 0 ::
            (uploadChunks CHUNK_SIZE envAllOk).1)).progress)) :=
  ⟨by decide, handleUpload_terminal_state CHUNK_SIZE envAllOk
    ⟨some "file1", none, "", "file1"⟩ (by decide)⟩

/-- C8 counterexample: the claim says that after finalization succeeds
the coordinator "resets the local file and progress state"; the reset
value of `progress` is null (`useState(null)`, and `handleFileChange`
resets it to null), but after this fully successful concrete run the
final progress is `some 100`, not `none` — the progress state is not
reset, only the file state is. -/
theorem finalize_success_progress_not_reset :
    ¬ ((runEvents ⟨some "file1", none, "", "file1"⟩
          (handleUpload CHUNK_SIZE envAllOk)).progress = none) := by
  decide

/-- C5: when the storage backend rejects the submitted token list
(wrong count, bad ordering, stale session — any rejection of
`s3.completeMultipartUpload`), `completeMultipartUpload` answers with a
500 error response and the metadata store is unchanged: no
`FileRecord` is persisted. -/
theorem completeSession_backend_reject (s3c save : Except String Unit)
    (dl : String) (store : List FileRecord) (req : CompleteReq) (now : Nat)
    (e : String) (h : s3c = .error e) :
    completeMultipartUpload s3c save dl store req now = (.err 500 e, store) := by
  subst h
  rfl

theorem completeSession_backend_reject_witness :
    (Except.error "InvalidPartOrder" : Except String Unit) =
      .error "InvalidPartOrder" ∧
    completeMultipartUpload (.error "InvalidPartOrder") (.ok ()) "download-url"
      [] ⟨"1700000000000_a.txt", "upload-1", [⟨2, "e2"⟩, ⟨1, "e1"⟩], 7⟩ 42 =
      (.err 500 "InvalidPartOrder", []) :=
  ⟨rfl, completeSession_backend_reject (.error "InvalidPartOrder") (.ok ())
    "download-url" [] ⟨"1700000000000_a.txt", "upload-1", [⟨2, "e2"⟩, ⟨1, "e1"⟩], 7⟩
    42 "InvalidPartOrder" rfl⟩

/-- C6: when the backend's session-creation call
(`s3.createMultipartUpload`, awaited outside the try block) fails, the
`createMultipartUpload` handler fails by propagating exactly that
backend error, makes no pre-signed-URL sign requests, and performs no
retry — the single backend outcome decides the result. -/
theorem createSession_backend_failure (sign : SignRequest → Except String String)
    (req : CreateReq) (e : String) :
    createMultipartUpload (.error e) sign req = (.thrown e, []) := rfl

theorem mintUrlsFrom_ok (sign : SignRequest → Except String String)
    (urlOf : SignRequest → String) (uploadId : String)
    (hsign : ∀ rq, sign rq = .ok (urlOf rq)) :
    ∀ rem i, mintUrlsFrom sign uploadId rem i =
      (.ok (((List.range' i rem).map
          (fun j => (⟨uploadId, EXPIRATION_HOURS, j + 1⟩ : SignRequest))).map urlOf),
        (List.range' i rem).map
          (fun j => (⟨uploadId, EXPIRATION_HOURS, j + 1⟩ : SignRequest))) := by
  intro rem
  induction rem with
  | zero => intro i; simp [mintUrlsFrom]
  | succ rem ih =>
    intro i
    simp [mintUrlsFrom, hsign, ih, List.range'_succ]

/-- C7: for every `create-multipart` request with a positive
`chunkCount` whose backend session creation succeeds and whose sign
operations all succeed, the handler responds with exactly `chunkCount`
pre-signed URLs, produced by sign requests numbered `1..chunkCount` in
the order returned, each with the fixed `Expires` window
`EXPIRATION_HOURS = 60 * 60 * 24` seconds — a full day (24 hours). -/
theorem createSession_mints_authorizations (uid : String)
    (sign : SignRequest → Except String String) (urlOf : SignRequest → String)
    (req : CreateReq) (hpos : 0 < req.chunkCount)
    (hsign : ∀ rq, sign rq = .ok (urlOf rq)) :
    createMultipartUpload (.ok uid) sign req =
      (.respOk uid ((signRequestsFor uid req.chunkCount).map urlOf),
        signRequestsFor uid req.chunkCount) ∧
    (signRequestsFor uid req.chunkCount).length = req.chunkCount ∧
    (signRequestsFor uid req.chunkCount).map SignRequest.partNumber =
      List.range' 1 req.chunkCount ∧
    ∀ rq ∈ signRequestsFor uid req.chunkCount, rq.expires = 24 * 60 * 60 := by
  refine ⟨?_, ?_, ?_, ?_⟩
  · have hm := mintUrlsFrom_ok sign urlOf uid hsign req.chunkCount 0
    simp only [createMultipartUpload, hm, signRequestsFor, List.range_eq_range']
  · simp [signRequestsFor]
  · simp only [signRequestsFor, List.map_map, List.range'_eq_map_range]
    apply List.map_congr_left
    intro i hi
    simp [Nat.add_comm]
  · intro rq hrq
    simp only [signRequestsFor, List.mem_map] at hrq
    obtain ⟨i, _, rfl⟩ := hrq
    rfl

theorem createSession_mints_authorizations_witness :
    0 < (⟨"1700000000000_a.txt", "text/plain", 3⟩ : CreateReq).chunkCount ∧
    (∀ rq : SignRequest,
      (fun rq : SignRequest => (Except.ok "signed-url" : Except String String)) rq =
        .ok ((fun _ : SignRequest => "signed-url") rq)) ∧
    (createMultipartUpload (.ok "upload-1")
        (fun _ : SignRequest => (Except.ok "signed-url" : Except String String))
        ⟨"1700000000000_a.txt", "text/plain", 3⟩ =
      (.respOk "upload-1"
        ((signRequestsFor "upload-1"
          (⟨"1700000000000_a.txt", "text/plain", 3⟩ : CreateReq).chunkCount).map
            (fun _ : SignRequest => "signed-url")),
        signRequestsFor "upload-1"
          (⟨"1700000000000_a.txt", "text/plain", 3⟩ : CreateReq).chunkCount) ∧
    (signRequestsFor "upload-1"
        (⟨"1700000000000_a.txt", "text/plain", 3⟩ : CreateReq).chunkCount).length =
      (⟨"1700000000000_a.txt", "text/plain", 3⟩ : CreateReq).chunkCount ∧
    (signRequestsFor "upload-1"
        (⟨"1700000000000_a.txt", "text/plain", 3⟩ : CreateReq).chunkCount).map
        SignRequest.partNumber =
      List.range' 1 (⟨"1700000000000_a.txt", "text/plain", 3⟩ : CreateReq).chunkCount ∧
    ∀ rq ∈ signRequestsFor "upload-1"
        (⟨"1700000000000_a.txt", "text/plain", 3⟩ : CreateReq).chunkCount,
      rq.expires = 24 * 60 * 60) :=
  ⟨by decide, fun rq => rfl,
    createSession_mints_authorizations "upload-1"
      (fun _ => (Except.ok "signed-url" : Except String String))
      (fun _ => "signed-url") ⟨"1700000000000_a.txt", "text/plain", 3⟩
      (by decide) (fun rq => rfl)⟩
